import Mathlib

/-!
Verification of the portfolio-risk-platform repository.

The repository's visible source is the React/TypeScript frontend
(`frontend/src/types/index.ts`, `frontend/src/services/api.ts`,
`frontend/src/pages/PortfolioDetail.tsx`, `frontend/src/pages/Dashboard.tsx`).
The Rust risk engine described by the specification is not part of the
visible source, so the engine pipeline below is modelled from the
specification's own words (sections 3, 4, 6-8); every such definition is
marked `Modelled from the spec:` in its doc comment.  Real-number
quantities are embedded as rationals (`ℚ`); the two square roots the
spec uses (portfolio volatility, drawdown scaling) are kept in squared
form inside the computable pipeline and bridged with `Real.sqrt` at the
statement level.
-/

/-- The six asset classes.  From `frontend/src/types/index.ts`
(`enum AssetClass`) and spec section 3 (EQUITY, BOND, CASH, CRYPTO,
COMMODITY, REAL_ESTATE). -/
inductive AssetClass where
  | equity
  | bond
  | cash
  | crypto
  | commodity
  | real_estate
deriving DecidableEq, Repr, Fintype

/-- The wire string of each asset class, exactly the string value the
TypeScript enum assigns to it (`frontend/src/types/index.ts`, lines 35-42). -/
def AssetClass.wire : AssetClass → String
  | .equity => "equity"
  | .bond => "bond"
  | .cash => "cash"
  | .crypto => "crypto"
  | .commodity => "commodity"
  | .real_estate => "real_estate"

/-- The spec's ordered enumeration of the six asset classes (section 3). -/
def AssetClass.all : List AssetClass :=
  [.equity, .bond, .cash, .crypto, .commodity, .real_estate]

/-- The option values offered by the asset-class `<select>` element of the
add-holding form (`frontend/src/pages/PortfolioDetail.tsx`, lines 333-338). -/
def assetClassSelectOptions : List String :=
  ["equity", "bond", "cash", "crypto", "commodity", "real_estate"]

/-- Modelled from the spec: `HoldingView` (section 3) — the engine's input
record for one holding.  `current_price` is optional; a non-finite float is
not representable in `ℚ`, so the embedding carries only finite prices. -/
structure HoldingView where
  ticker : String
  asset_class : AssetClass
  quantity : ℚ
  avg_cost : ℚ
  current_price : Option ℚ
  sector : Option String
deriving DecidableEq, Repr

/-- Modelled from the spec: per-asset-class risk parameters
(section 3, "Risk Profile"). -/
structure RiskProfile where
  expected_return : ℚ
  annualized_volatility : ℚ
  typical_drawdown : ℚ
deriving DecidableEq, Repr

/-- Modelled from the spec: the engine's static configuration — the Risk
Profile Table, the fixed symmetric correlation matrix over the six asset
classes, and the configured risk-free rate (sections 4.2, 4.4, 6).  The
concrete numeric values live in the missing engine source, so the
configuration is a parameter constrained by `ValidConfig`. -/
structure EngineConfig where
  profile : AssetClass → RiskProfile
  corr : AssetClass → AssetClass → ℚ
  risk_free_rate : ℚ

/-- Modelled from the spec: the constraints the spec places on the static
configuration — volatilities and drawdowns are non-negative reals
(section 3), cash has `σ = 0` and zero correlation to everything
(section 4.2), the correlation matrix is symmetric (section 4.2), and
correlations lie in `[0, 1]` (section 4.2's remark that mixing lowers
volatility below the weighted average, and section 8's monotonicity
property, constrain the fixed entries to this range). -/
def ValidConfig (cfg : EngineConfig) : Prop :=
  (∀ c, 0 ≤ (cfg.profile c).annualized_volatility) ∧
  (∀ c, 0 ≤ (cfg.profile c).typical_drawdown) ∧
  (cfg.profile AssetClass.cash).annualized_volatility = 0 ∧
  (∀ c d, cfg.corr c d = cfg.corr d c) ∧
  (∀ c, cfg.corr AssetClass.cash c = 0) ∧
  (∀ c d, 0 ≤ cfg.corr c d ∧ cfg.corr c d ≤ 1)

instance : DecidablePred ValidConfig := fun cfg => by
  unfold ValidConfig; infer_instance

/-- Modelled from the spec: a holding's market value —
`current_price · quantity` if `current_price` is present, else
`avg_cost · quantity` (section 3, "Resolved Holding"). -/
def marketValue (h : HoldingView) : ℚ :=
  match h.current_price with
  | some p => p * h.quantity
  | none => h.avg_cost * h.quantity

/-- Modelled from the spec: portfolio total value — the sum of the
holdings' market values (section 4.1). -/
def totalValue (hs : List HoldingView) : ℚ :=
  (hs.map marketValue).sum

/-- Modelled from the spec: a holding's portfolio weight,
`market_value / total_value`, defined as 0 when `total_value == 0`
(section 3, "Resolved Holding"). -/
def weight (tv : ℚ) (h : HoldingView) : ℚ :=
  if tv = 0 then 0 else marketValue h / tv

/-- The sum of the resolved holdings' weights (spec section 8, first
testable property). -/
def sumWeights (hs : List HoldingView) : ℚ :=
  (hs.map (weight (totalValue hs))).sum

/-- Modelled from the spec: the error taxonomy of the compute boundary
(section 6, failure response kinds). -/
inductive ErrorKind where
  | invalid_holding
  | unsupported_asset_class
  | malformed_request
deriving DecidableEq, Repr

/-- Modelled from the spec: a structured validation error carrying its
kind, the offending field and the offending ticker (sections 6-7). -/
structure EngineError where
  kind : ErrorKind
  field : String
  ticker : String
deriving DecidableEq, Repr

/-- Modelled from the spec: per-holding validation (section 4.1) —
`quantity ≥ 0`, `avg_cost ≥ 0`, and, when present, `current_price ≥ 0`;
a violation yields an `invalid_holding` error naming the offending field
and ticker.  (The spec's finiteness requirement on `current_price` is a
float-level condition with no `ℚ` counterpart.) -/
def holdingError (h : HoldingView) : Option EngineError :=
  if h.quantity < 0 then
    some ⟨ErrorKind.invalid_holding, "quantity", h.ticker⟩
  else if h.avg_cost < 0 then
    some ⟨ErrorKind.invalid_holding, "avg_cost", h.ticker⟩
  else
    match h.current_price with
    | some p =>
        if p < 0 then some ⟨ErrorKind.invalid_holding, "current_price", h.ticker⟩
        else none
    | none => none

/-- Modelled from the spec: request validation — the first offending
holding's error, or `none` when every holding is in range (sections 4.1
and 7: validation runs before any computation). -/
def validate (hs : List HoldingView) : Option EngineError :=
  hs.findSome? holdingError

/-- Modelled from the spec: portfolio expected return — the
weight-weighted sum of asset-class expected returns (section 4.2). -/
def portfolioReturn (cfg : EngineConfig) (hs : List HoldingView) : ℚ :=
  (hs.map (fun h =>
    weight (totalValue hs) h * (cfg.profile h.asset_class).expected_return)).sum

/-- Modelled from the spec: the weighted-variance expression
`Σ_i Σ_j w_i·w_j·ρ(class_i,class_j)·σ_i·σ_j` (section 4.2).  The spec's
`portfolio_volatility` is the square root of this value; the square root
is taken with `Real.sqrt` at the statement level. -/
def portfolioVariance (cfg : EngineConfig) (hs : List HoldingView) : ℚ :=
  (hs.map (fun hi =>
    (hs.map (fun hj =>
      weight (totalValue hs) hi * weight (totalValue hs) hj *
        cfg.corr hi.asset_class hj.asset_class *
        (cfg.profile hi.asset_class).annualized_volatility *
        (cfg.profile hj.asset_class).annualized_volatility)).sum)).sum

/-- Modelled from the spec: the weight-weighted average of the constituent
asset-class annualized volatilities (section 4.3). -/
def avgClassVol (cfg : EngineConfig) (hs : List HoldingView) : ℚ :=
  (hs.map (fun h =>
    weight (totalValue hs) h * (cfg.profile h.asset_class).annualized_volatility)).sum

/-- Modelled from the spec: the weight-weighted average of the asset-class
typical drawdowns (section 4.3). -/
def avgDrawdown (cfg : EngineConfig) (hs : List HoldingView) : ℚ :=
  (hs.map (fun h =>
    weight (totalValue hs) h * (cfg.profile h.asset_class).typical_drawdown)).sum

/-- Modelled from the spec: the square of the clamped drawdown estimate of
section 4.3, `max_drawdown_1y = clamp_[0,1] (avgDrawdown · √variance / avgClassVol)`.
All factors are non-negative, so clamping the value to `[0,1]` and
clamping its square to `[0,1]` agree; the square is kept so the pipeline
stays inside `ℚ`. -/
def drawdownSq (cfg : EngineConfig) (hs : List HoldingView) : ℚ :=
  min 1 (avgDrawdown cfg hs ^ 2 * portfolioVariance cfg hs / avgClassVol cfg hs ^ 2)

/-- Modelled from the spec: `cash_pct` — the sum of weights of CASH-class
holdings, surfaced on the 0-100 scale (sections 4.5 and 6). -/
def cashPct (hs : List HoldingView) : ℚ :=
  100 * ((hs.filter (fun h => h.asset_class = AssetClass.cash)).map
    (weight (totalValue hs))).sum

/-- Modelled from the spec: `top_holding_pct` — the maximum individual
holding weight, surfaced on the 0-100 scale (sections 4.5 and 6). -/
def topHoldingPct (hs : List HoldingView) : ℚ :=
  100 * (hs.map (weight (totalValue hs))).foldr max 0

/-- Modelled from the spec: the Herfindahl-Hirschman index — the sum of
squared holding weights (section 4.5). -/
def hhi (hs : List HoldingView) : ℚ :=
  (hs.map (fun h => weight (totalValue hs) h ^ 2)).sum

/-- Modelled from the spec: `diversification_score = 100·(1 − HHI)`
(section 4.5). -/
def diversificationScore (hs : List HoldingView) : ℚ :=
  100 * (1 - hhi hs)

/-- Modelled from the spec: the engine's output record (section 3,
RiskSnapshot; section 4.6).  `volatility_30d_sq` holds the square of the
surfaced 30-day volatility (the surfaced value is its `Real.sqrt`);
`max_drawdown_1y_sq` likewise holds the square of the surfaced drawdown
fraction; `sharpe_excess_return` holds the Sharpe numerator
`portfolio_return − risk_free_rate` (the surfaced Sharpe ratio divides it
by the surfaced volatility), and is `none` exactly when the spec makes
`sharpe_ratio` null.  Each metric field is an `Option`, `none` embedding
the spec's explicit null. -/
structure EngineSnapshot where
  as_of : Nat
  volatility_30d_sq : Option ℚ
  max_drawdown_1y_sq : Option ℚ
  sharpe_excess_return : Option ℚ
  cash_pct : Option ℚ
  top_holding_pct : Option ℚ
  diversification_score : Option ℚ
  total_value : ℚ
deriving DecidableEq, Repr

/-- Modelled from the spec: the compute operation of the Snapshot
Assembler & Service Boundary (section 4.6) — validate, then run the fixed
pipeline 4.1 → 4.2 → {4.3, 4.4, 4.5} and assemble the snapshot with the
server-generated `as_of`; on validation failure return the structured
error and no snapshot.  When `total_value == 0` (including the empty
holdings list) every metric is null (sections 4.1-4.5, 7, 8); the Sharpe
field is additionally null when the portfolio volatility is zero
(section 4.4). -/
def compute (cfg : EngineConfig) (asOf : Nat) (hs : List HoldingView) :
    Except EngineError EngineSnapshot :=
  match validate hs with
  | some e => Except.error e
  | none =>
    if totalValue hs = 0 then
      Except.ok ⟨asOf, none, none, none, none, none, none, 0⟩
    else
      Except.ok ⟨asOf,
        some (portfolioVariance cfg hs),
        some (drawdownSq cfg hs),
        (if portfolioVariance cfg hs = 0 then none
         else some (portfolioReturn cfg hs - cfg.risk_free_rate)),
        some (cashPct hs),
        some (topHoldingPct hs),
        some (diversificationScore hs),
        totalValue hs⟩

/-- The six metric fields of a snapshot, `as_of` and `total_value`
projected away (spec section 4.6: snapshots from identical input agree
aside from the timestamp). -/
def metricsOf (s : EngineSnapshot) :
    Option ℚ × Option ℚ × Option ℚ × Option ℚ × Option ℚ × Option ℚ × ℚ :=
  (s.volatility_30d_sq, s.max_drawdown_1y_sq, s.sharpe_excess_return,
   s.cash_pct, s.top_holding_pct, s.diversification_score, s.total_value)

/-- All six metric fields of a snapshot are null (spec sections 3 and 8:
zero total value or empty holdings make every metric null). -/
def allMetricsNull (s : EngineSnapshot) : Prop :=
  s.volatility_30d_sq = none ∧ s.max_drawdown_1y_sq = none ∧
  s.sharpe_excess_return = none ∧ s.cash_pct = none ∧
  s.top_holding_pct = none ∧ s.diversification_score = none

namespace Frontend

/-- A holding row as delivered to the frontend
(`frontend/src/types/index.ts`, `interface Holding`): `current_price`,
`market_value` and `sector` are nullable. -/
structure Holding where
  id : Int
  portfolio_id : Int
  ticker : String
  asset_class : AssetClass
  quantity : ℚ
  avg_cost : ℚ
  current_price : Option ℚ
  market_value : Option ℚ
  sector : Option String
  last_updated : String
deriving DecidableEq, Repr

/-- The risk snapshot record as typed by the frontend
(`frontend/src/types/index.ts`, `interface RiskSnapshot`): each of the
seven output fields is `number | null`, embedded as `Option ℚ`. -/
structure RiskSnapshot where
  id : Int
  portfolio_id : Int
  as_of : String
  volatility_30d : Option ℚ
  max_drawdown_1y : Option ℚ
  sharpe_ratio : Option ℚ
  cash_pct : Option ℚ
  top_holding_pct : Option ℚ
  diversification_score : Option ℚ
  total_value : Option ℚ
deriving DecidableEq, Repr

/-- JavaScript's `x || y` applied to a value of type `number | null`:
it yields `y` whenever `x` is null or `x` is the (falsy) number 0, and
`x` otherwise.  (`NaN`, also falsy, has no `ℚ` counterpart.) -/
def jsOrNum (x : Option ℚ) (y : ℚ) : ℚ :=
  match x with
  | some v => if v = 0 then y else v
  | none => y

/-- The market value shown in a holding's table cell
(`frontend/src/pages/PortfolioDetail.tsx`, line 277):
`holding.market_value || holding.quantity * holding.avg_cost`. -/
def displayMarketValue (h : Holding) : ℚ :=
  jsOrNum h.market_value (h.quantity * h.avg_cost)

/-- The page's `totalValue` (`frontend/src/pages/PortfolioDetail.tsx`,
lines 97-99): `holdings?.reduce((sum, h) => sum + (h.market_value ||
h.quantity * h.avg_cost), 0) || 0`, where `holdings` may be undefined
while the query is in flight. -/
def pageTotalValue (holdings : Option (List Holding)) : ℚ :=
  match holdings with
  | none => 0
  | some hs => jsOrNum (some (hs.foldl (fun sum h => sum + displayMarketValue h) 0)) 0

/-- The `disabled` condition of the Compute Risk button
(`frontend/src/pages/PortfolioDetail.tsx`, line 125):
`!holdings || holdings.length === 0 || computeRiskMutation.isPending`. -/
def computeRiskDisabled (holdings : Option (List Holding)) (isPending : Bool) : Bool :=
  (match holdings with
   | none => true
   | some hs => decide (hs.length = 0)) || isPending

end Frontend

/-- Dividing each summand by a constant divides the sum. -/
theorem list_sum_map_div {α : Type} (l : List α) (f : α → ℚ) (c : ℚ) :
    (l.map (fun x => f x / c)).sum = (l.map f).sum / c := by
  induction l with
  | nil => simp
  | cons a t ih => simp [ih, add_div]

/-- With a nonzero total value the resolved weights sum to exactly 1. -/
theorem sumWeights_eq_one {hs : List HoldingView} (h : totalValue hs ≠ 0) :
    sumWeights hs = 1 := by
  unfold sumWeights
  have hw : (hs.map (weight (totalValue hs))) =
      hs.map (fun x => marketValue x / totalValue hs) := by
    apply List.map_congr_left
    intro a _
    unfold weight
    rw [if_neg h]
  rw [hw, list_sum_map_div]
  exact div_self h

/-- Passing validation means every holding individually passes. -/
theorem validate_none {hs : List HoldingView} (h : validate hs = none) :
    ∀ x ∈ hs, holdingError x = none := by
  unfold validate at h
  exact List.findSome?_eq_none_iff.mp h

/-- A holding that passes validation has non-negative market value. -/
theorem marketValue_nonneg {h : HoldingView} (he : holdingError h = none) :
    0 ≤ marketValue h := by
  unfold holdingError at he
  by_cases hq : h.quantity < 0
  · simp [hq] at he
  by_cases ha : h.avg_cost < 0
  · simp [hq, ha] at he
  unfold marketValue
  cases hp : h.current_price with
  | some p =>
    by_cases hpn : p < 0
    · simp [hq, ha, hp, hpn] at he
    · exact mul_nonneg (not_lt.mp hpn) (not_lt.mp hq)
  | none => exact mul_nonneg (not_lt.mp ha) (not_lt.mp hq)

/-- The total value of validated holdings is non-negative. -/
theorem totalValue_nonneg {hs : List HoldingView} (h : validate hs = none) :
    0 ≤ totalValue hs := by
  unfold totalValue
  apply List.sum_nonneg
  intro x hx
  rcases List.mem_map.mp hx with ⟨a, ha, rfl⟩
  exact marketValue_nonneg (validate_none h a ha)

/-- Every weight of a validated portfolio is non-negative. -/
theorem weight_nonneg {hs : List HoldingView} (hv : validate hs = none)
    {h : HoldingView} (hm : h ∈ hs) : 0 ≤ weight (totalValue hs) h := by
  unfold weight
  by_cases h0 : totalValue hs = 0
  · rw [if_pos h0]
  · rw [if_neg h0]
    exact div_nonneg (marketValue_nonneg (validate_none hv h hm))
      (totalValue_nonneg hv)

/-- A representative static configuration satisfying `ValidConfig`,
used to instantiate the spec-modelled engine on concrete inputs. -/
def sampleProfile : AssetClass → RiskProfile
  | .equity => ⟨8/100, 18/100, 35/100⟩
  | .bond => ⟨3/100, 6/100, 10/100⟩
  | .cash => ⟨1/100, 0, 0⟩
  | .crypto => ⟨15/100, 80/100, 70/100⟩
  | .commodity => ⟨5/100, 20/100, 30/100⟩
  | .real_estate => ⟨6/100, 15/100, 25/100⟩

/-- A representative correlation matrix: zero on the cash row and column,
1 on the remaining diagonal, 1/2 between distinct non-cash classes. -/
def sampleCorr (c d : AssetClass) : ℚ :=
  if c = AssetClass.cash ∨ d = AssetClass.cash then 0
  else if c = d then 1 else 1/2

/-- A representative engine configuration. -/
def sampleConfig : EngineConfig :=
  ⟨sampleProfile, sampleCorr, 2/100⟩

/-- The spec's concrete scenario holding (section 8): `quantity = 100`,
`avg_cost = 150`, `current_price = 155`, asset class EQUITY. -/
def scenarioHolding : HoldingView :=
  ⟨"AAPL", AssetClass.equity, 100, 150, some 155, none⟩

/-- The scenario holding passes validation. -/
theorem validate_scenario : validate [scenarioHolding] = none := by
  norm_num [validate, List.findSome?, holdingError, scenarioHolding]

/-- The scenario portfolio's total value is 15500 (spec section 8). -/
theorem totalValue_scenario : totalValue [scenarioHolding] = 15500 := by
  norm_num [totalValue, marketValue, scenarioHolding]

/-- C1: for every portfolio that passes validation, the resolved weights
sum to 1 (hence within the spec's `1e-9` tolerance) whenever
`total_value > 0`; and when `total_value = 0` or the holdings list is
empty, every weight is 0 and the returned snapshot has all six metrics
null. -/
theorem weights_sum_C1 (cfg : EngineConfig) (asOf : Nat) (hs : List HoldingView)
    (hval : validate hs = none) :
    (0 < totalValue hs → |sumWeights hs - 1| ≤ 1 / 1000000000) ∧
    ((totalValue hs = 0 ∨ hs = []) →
      (∀ h ∈ hs, weight (totalValue hs) h = 0) ∧
      compute cfg asOf hs = Except.ok ⟨asOf, none, none, none, none, none, none, 0⟩) := by
  constructor
  · intro htv
    rw [sumWeights_eq_one (ne_of_gt htv)]
    norm_num
  · intro h0
    have htv : totalValue hs = 0 := by
      rcases h0 with h0 | h0
      · exact h0
      · rw [h0]; rfl
    refine ⟨?_, ?_⟩
    · intro h _
      unfold weight
      rw [if_pos htv]
    · unfold compute
      rw [hval, if_pos htv]

/-- Witness for C1 at the concrete scenario holding (positive branch) and
at the empty holdings list (degenerate branch). -/
theorem weights_sum_C1_witness :
    (validate [scenarioHolding] = none ∧
      (0 < totalValue [scenarioHolding] →
        |sumWeights [scenarioHolding] - 1| ≤ 1 / 1000000000) ∧
      0 < totalValue [scenarioHolding]) ∧
    (validate ([] : List HoldingView) = none ∧
      ((totalValue ([] : List HoldingView) = 0 ∨ ([] : List HoldingView) = []) →
        (∀ h ∈ ([] : List HoldingView), weight (totalValue ([] : List HoldingView)) h = 0) ∧
        compute sampleConfig 7 [] =
          Except.ok ⟨7, none, none, none, none, none, none, 0⟩)) :=
  ⟨⟨validate_scenario, (weights_sum_C1 sampleConfig 7 [scenarioHolding] validate_scenario).1,
    by rw [totalValue_scenario]; norm_num⟩,
   ⟨rfl, (weights_sum_C1 sampleConfig 7 [] rfl).2⟩⟩

/-- C2: the compute operation is a pure function of its input — for
identical configuration and holdings, two invocations with different
`as_of` timestamps yield snapshots with identical metrics and
`total_value`, differing at most in `as_of`. -/
theorem compute_deterministic_C2 (cfg : EngineConfig) (t t' : Nat)
    (hs : List HoldingView) :
    (compute cfg t hs).map metricsOf = (compute cfg t' hs).map metricsOf := by
  unfold compute
  cases validate hs with
  | some e => rfl
  | none =>
    by_cases h : totalValue hs = 0 <;> simp [h, metricsOf, Except.map]

/-- The representative configuration satisfies the spec's constraints. -/
theorem sampleConfig_valid : ValidConfig sampleConfig := by
  refine ⟨?_, ?_, rfl, ?_, ?_, ?_⟩
  · intro c; cases c <;> norm_num [sampleConfig, sampleProfile]
  · intro c; cases c <;> norm_num [sampleConfig, sampleProfile]
  · intro c d; cases c <;> cases d <;> rfl
  · intro c; cases c <;> rfl
  · intro c d; cases c <;> cases d <;> refine ⟨?_, ?_⟩ <;>
      simp [sampleConfig, sampleCorr] <;> norm_num

/-- Under a valid configuration and validated holdings, the
weighted-variance expression is non-negative. -/
theorem portfolioVariance_nonneg {cfg : EngineConfig} {hs : List HoldingView}
    (hcfg : ValidConfig cfg) (hval : validate hs = none) :
    0 ≤ portfolioVariance cfg hs := by
  unfold portfolioVariance
  apply List.sum_nonneg
  intro x hx
  rcases List.mem_map.mp hx with ⟨hi, hhi, rfl⟩
  apply List.sum_nonneg
  intro y hy
  rcases List.mem_map.mp hy with ⟨hj, hhj, rfl⟩
  have hwi := weight_nonneg hval hhi
  have hwj := weight_nonneg hval hhj
  have hσi := hcfg.1 hi.asset_class
  have hσj := hcfg.1 hj.asset_class
  have hρ := (hcfg.2.2.2.2.2 hi.asset_class hj.asset_class).1
  exact mul_nonneg (mul_nonneg (mul_nonneg (mul_nonneg hwi hwj) hρ) hσi) hσj

/-- For an all-cash portfolio the weighted-variance expression is zero
(cash has `σ = 0`). -/
theorem portfolioVariance_allCash {cfg : EngineConfig} {hs : List HoldingView}
    (hcfg : ValidConfig cfg) (hcash : ∀ h ∈ hs, h.asset_class = AssetClass.cash) :
    portfolioVariance cfg hs = 0 := by
  unfold portfolioVariance
  apply List.sum_eq_zero
  intro x hx
  rcases List.mem_map.mp hx with ⟨hi, hhi, rfl⟩
  apply List.sum_eq_zero
  intro y hy
  rcases List.mem_map.mp hy with ⟨hj, hhj, rfl⟩
  rw [hcash hi hhi, hcfg.2.2.1]
  ring

/-- An all-cash holding used to witness the degenerate Sharpe case. -/
def cashHolding : HoldingView :=
  ⟨"CASHX", AssetClass.cash, 1000, 1, some 1, none⟩

/-- C4: for every validated portfolio with positive total value, the
Sharpe numerator field holds `portfolio_return − risk_free_rate` exactly
when the portfolio volatility (the square root of the weighted variance)
is nonzero — the surfaced Sharpe ratio divides it by that volatility —
and is null, raising no fault, when the volatility is zero; an all-cash
portfolio has zero volatility and a null Sharpe ratio. -/
theorem sharpe_C4 (cfg : EngineConfig) (asOf : Nat) (hs : List HoldingView)
    (hcfg : ValidConfig cfg) (hval : validate hs = none)
    (htv : totalValue hs ≠ 0) :
    ∃ s, compute cfg asOf hs = Except.ok s ∧
      (Real.sqrt (portfolioVariance cfg hs) = 0 ↔ portfolioVariance cfg hs = 0) ∧
      (portfolioVariance cfg hs ≠ 0 →
        s.sharpe_excess_return = some (portfolioReturn cfg hs - cfg.risk_free_rate)) ∧
      (portfolioVariance cfg hs = 0 → s.sharpe_excess_return = none) ∧
      ((∀ h ∈ hs, h.asset_class = AssetClass.cash) →
        s.volatility_30d_sq = some 0 ∧ s.sharpe_excess_return = none) := by
  refine ⟨_, by unfold compute; rw [hval, if_neg htv], ?_, ?_, ?_, ?_⟩
  · constructor
    · intro hz
      have hnn : (0 : ℝ) ≤ (portfolioVariance cfg hs : ℝ) := by
        exact_mod_cast portfolioVariance_nonneg hcfg hval
      have := (Real.sqrt_eq_zero hnn).mp hz
      exact_mod_cast this
    · intro hz
      rw [hz]
      simp [Real.sqrt_zero]
  · intro hnz
    simp only [if_neg hnz]
  · intro hz
    simp only [if_pos hz]
  · intro hcash
    have hz := portfolioVariance_allCash hcfg hcash
    exact ⟨by rw [hz], by simp only [if_pos hz]⟩

/-- Witness for C4 at a concrete all-cash portfolio with positive value. -/
theorem sharpe_C4_witness :
    ValidConfig sampleConfig ∧ validate [cashHolding] = none ∧
    totalValue [cashHolding] ≠ 0 ∧
    (∃ s, compute sampleConfig 3 [cashHolding] = Except.ok s ∧
      (Real.sqrt (portfolioVariance sampleConfig [cashHolding]) = 0 ↔
        portfolioVariance sampleConfig [cashHolding] = 0) ∧
      (portfolioVariance sampleConfig [cashHolding] ≠ 0 →
        s.sharpe_excess_return =
          some (portfolioReturn sampleConfig [cashHolding] - sampleConfig.risk_free_rate)) ∧
      (portfolioVariance sampleConfig [cashHolding] = 0 →
        s.sharpe_excess_return = none) ∧
      ((∀ h ∈ [cashHolding], h.asset_class = AssetClass.cash) →
        s.volatility_30d_sq = some 0 ∧ s.sharpe_excess_return = none)) :=
  ⟨sampleConfig_valid,
   by norm_num [validate, List.findSome?, holdingError, cashHolding],
   by norm_num [totalValue, marketValue, cashHolding],
   sharpe_C4 sampleConfig 3 [cashHolding] sampleConfig_valid
     (by norm_num [validate, List.findSome?, holdingError, cashHolding])
     (by norm_num [totalValue, marketValue, cashHolding])⟩

/-- For non-negative entries the sum of squares is at most the square of
the sum. -/
theorem sq_sum_le_sum_sq (l : List ℚ) (h : ∀ x ∈ l, 0 ≤ x) :
    (l.map (fun x => x ^ 2)).sum ≤ l.sum ^ 2 := by
  induction l with
  | nil => simp
  | cons a t ih =>
    simp only [List.map_cons, List.sum_cons]
    have ha : 0 ≤ a := h a (by simp)
    have ht : ∀ x ∈ t, 0 ≤ x := fun x hx => h x (by simp [hx])
    have hts : 0 ≤ t.sum := List.sum_nonneg ht
    have hih := ih ht
    nlinarith [mul_nonneg ha hts]

/-- The HHI of any holdings list is non-negative. -/
theorem hhi_nonneg (hs : List HoldingView) : 0 ≤ hhi hs := by
  unfold hhi
  apply List.sum_nonneg
  intro x hx
  rcases List.mem_map.mp hx with ⟨a, _, rfl⟩
  exact sq_nonneg _

/-- For a validated portfolio with nonzero total value the HHI is at
most 1. -/
theorem hhi_le_one {hs : List HoldingView} (hval : validate hs = none)
    (htv : totalValue hs ≠ 0) : hhi hs ≤ 1 := by
  unfold hhi
  have hmm : (hs.map (fun h => weight (totalValue hs) h ^ 2)).sum =
      ((hs.map (weight (totalValue hs))).map (fun x => x ^ 2)).sum := by
    rw [List.map_map]
    rfl
  rw [hmm]
  have hb := sq_sum_le_sum_sq (hs.map (weight (totalValue hs))) ?_
  · have hsum : (hs.map (weight (totalValue hs))).sum = 1 := sumWeights_eq_one htv
    rw [hsum] at hb
    simpa using hb
  · intro x hx
    rcases List.mem_map.mp hx with ⟨a, ha, rfl⟩
    exact weight_nonneg hval ha

/-- The scenario portfolio's top holding weight is 100%. -/
theorem topHoldingPct_scenario : topHoldingPct [scenarioHolding] = 100 := by
  norm_num [topHoldingPct, weight, totalValue, marketValue, scenarioHolding]

/-- The scenario portfolio's HHI is 1. -/
theorem hhi_scenario : hhi [scenarioHolding] = 1 := by
  norm_num [hhi, weight, totalValue, marketValue, scenarioHolding]

/-- The scenario portfolio's diversification score is 0. -/
theorem divScore_scenario : diversificationScore [scenarioHolding] = 0 := by
  rw [diversificationScore, hhi_scenario]
  norm_num

/-- C5: for every validated portfolio with positive total value,
`diversification_score = 100·(1 − Σ w_i²)` with the sum of squared
weights over individual holdings, and the score lies in `[0, 100]`;
moreover the spec's one-holding scenario (`quantity = 100`,
`avg_cost = 150`, `current_price = 155`) yields `total_value = 15500`,
`top_holding_pct = 100` and `diversification_score = 0`. -/
theorem diversification_C5 (cfg : EngineConfig) (asOf : Nat)
    (hs : List HoldingView) (hval : validate hs = none)
    (htv : totalValue hs ≠ 0) :
    (∃ s, compute cfg asOf hs = Except.ok s ∧
      s.diversification_score = some (100 * (1 - hhi hs)) ∧
      0 ≤ 100 * (1 - hhi hs) ∧ 100 * (1 - hhi hs) ≤ 100) ∧
    (∀ cfg' : EngineConfig, ∀ asOf' : Nat, ∀ s',
      compute cfg' asOf' [scenarioHolding] = Except.ok s' →
      s'.total_value = 15500 ∧ s'.top_holding_pct = some 100 ∧
      s'.diversification_score = some 0) := by
  constructor
  · refine ⟨_, by unfold compute; rw [hval, if_neg htv], rfl, ?_, ?_⟩
    · have := hhi_le_one hval htv
      linarith
    · have := hhi_nonneg hs
      linarith
  · intro cfg' asOf' s' hok
    unfold compute at hok
    rw [validate_scenario, if_neg (by rw [totalValue_scenario]; norm_num)] at hok
    simp only [Except.ok.injEq] at hok
    subst hok
    exact ⟨totalValue_scenario, congrArg some topHoldingPct_scenario,
      congrArg some divScore_scenario⟩

/-- Witness for C5 at the spec's concrete scenario. -/
theorem diversification_C5_witness :
    validate [scenarioHolding] = none ∧ totalValue [scenarioHolding] ≠ 0 ∧
    ((∃ s, compute sampleConfig 11 [scenarioHolding] = Except.ok s ∧
      s.diversification_score = some (100 * (1 - hhi [scenarioHolding])) ∧
      0 ≤ 100 * (1 - hhi [scenarioHolding]) ∧
      100 * (1 - hhi [scenarioHolding]) ≤ 100) ∧
    (∀ cfg' : EngineConfig, ∀ asOf' : Nat, ∀ s',
      compute cfg' asOf' [scenarioHolding] = Except.ok s' →
      s'.total_value = 15500 ∧ s'.top_holding_pct = some 100 ∧
      s'.diversification_score = some 0)) :=
  ⟨validate_scenario, by rw [totalValue_scenario]; norm_num,
   diversification_C5 sampleConfig 11 [scenarioHolding] validate_scenario
     (by rw [totalValue_scenario]; norm_num)⟩

/-- A violation of one of the spec's per-holding range constraints
(section 4.1), matched to the field name the validation error reports. -/
def fieldViolated (fld : String) (h : HoldingView) : Prop :=
  (fld = "quantity" ∧ h.quantity < 0) ∨
  (fld = "avg_cost" ∧ h.avg_cost < 0) ∨
  (fld = "current_price" ∧ ∃ p, h.current_price = some p ∧ p < 0)

/-- Whatever error `holdingError` reports is an `invalid_holding` error
naming the holding's ticker and a field the holding actually violates. -/
theorem holdingError_spec {h : HoldingView} {e : EngineError}
    (he : holdingError h = some e) :
    e.kind = ErrorKind.invalid_holding ∧ e.ticker = h.ticker ∧
      fieldViolated e.field h := by
  unfold holdingError at he
  by_cases hq : h.quantity < 0
  · rw [if_pos hq] at he
    cases he
    exact ⟨rfl, rfl, Or.inl ⟨rfl, hq⟩⟩
  rw [if_neg hq] at he
  by_cases ha : h.avg_cost < 0
  · rw [if_pos ha] at he
    cases he
    exact ⟨rfl, rfl, Or.inr (Or.inl ⟨rfl, ha⟩)⟩
  rw [if_neg ha] at he
  cases hp : h.current_price with
  | some p =>
    rw [hp] at he
    by_cases hpn : p < 0
    · simp only [if_pos hpn] at he
      cases he
      exact ⟨rfl, rfl, Or.inr (Or.inr ⟨rfl, p, hp, hpn⟩)⟩
    · simp only [if_neg hpn] at he
      cases he
  | none =>
    rw [hp] at he
    cases he

/-- A holding violating one of the range constraints fails `holdingError`. -/
theorem holdingError_ne_none {h : HoldingView}
    (hviol : h.quantity < 0 ∨ h.avg_cost < 0 ∨
      ∃ p, h.current_price = some p ∧ p < 0) :
    holdingError h ≠ none := by
  unfold holdingError
  rcases hviol with hq | ha | ⟨p, hp, hpn⟩
  · simp [hq]
  · by_cases hq : h.quantity < 0 <;> simp [hq, ha]
  · by_cases hq : h.quantity < 0
    · simp [hq]
    by_cases hA : h.avg_cost < 0 <;> simp [hq, hA, hp, hpn]

/-- A list containing an out-of-range holding fails validation with an
`invalid_holding` error naming an offending holding's field and ticker. -/
theorem validate_some_of_violation {hs : List HoldingView}
    (hbad : ∃ h ∈ hs, h.quantity < 0 ∨ h.avg_cost < 0 ∨
      ∃ p, h.current_price = some p ∧ p < 0) :
    ∃ e, validate hs = some e ∧ e.kind = ErrorKind.invalid_holding ∧
      ∃ h ∈ hs, e.ticker = h.ticker ∧ fieldViolated e.field h := by
  induction hs with
  | nil => rcases hbad with ⟨h, hm, _⟩; cases hm
  | cons a t ih =>
    cases hae : holdingError a with
    | some e =>
      refine ⟨e, ?_, (holdingError_spec hae).1,
        a, List.mem_cons_self a t, (holdingError_spec hae).2.1,
        (holdingError_spec hae).2.2⟩
      unfold validate
      rw [List.findSome?_cons, hae]
    | none =>
      rcases hbad with ⟨h, hm, hviol⟩
      rcases List.mem_cons.mp hm with rfl | hmt
      · exact absurd hae (holdingError_ne_none hviol)
      · rcases ih ⟨h, hmt, hviol⟩ with ⟨e, hv, hk, h', hm', ht', hf'⟩
        refine ⟨e, ?_, hk, h', List.mem_cons_of_mem a hm', ht', hf'⟩
        unfold validate at hv ⊢
        rw [List.findSome?_cons, hae]
        exact hv

/-- C7: a request containing a holding with negative `quantity`, negative
`avg_cost`, or a present negative `current_price` makes compute return a
structured `invalid_holding` error naming an offending field and ticker,
and no snapshot at all.  (A non-finite `current_price` has no rational
counterpart, so non-finiteness is outside this embedding.) -/
theorem validation_error_C7 (cfg : EngineConfig) (asOf : Nat)
    (hs : List HoldingView)
    (hbad : ∃ h ∈ hs, h.quantity < 0 ∨ h.avg_cost < 0 ∨
      ∃ p, h.current_price = some p ∧ p < 0) :
    ∃ e, compute cfg asOf hs = Except.error e ∧
      e.kind = ErrorKind.invalid_holding ∧
      ∃ h ∈ hs, e.ticker = h.ticker ∧ fieldViolated e.field h := by
  rcases validate_some_of_violation hbad with ⟨e, hv, hk, hrest⟩
  refine ⟨e, ?_, hk, hrest⟩
  unfold compute
  rw [hv]

/-- A holding with the claim's failing input `quantity = -1`. -/
def badHolding : HoldingView :=
  ⟨"BADQ", AssetClass.equity, -1, 10, none, none⟩

/-- Witness for C7 at the claim's concrete input `quantity = -1`. -/
theorem validation_error_C7_witness :
    (∃ h ∈ [badHolding], h.quantity < 0 ∨ h.avg_cost < 0 ∨
      ∃ p, h.current_price = some p ∧ p < 0) ∧
    ∃ e, compute sampleConfig 5 [badHolding] = Except.error e ∧
      e.kind = ErrorKind.invalid_holding ∧
      ∃ h ∈ [badHolding], e.ticker = h.ticker ∧ fieldViolated e.field h :=
  ⟨⟨badHolding, List.mem_singleton.mpr rfl, Or.inl (by norm_num [badHolding])⟩,
   validation_error_C7 sampleConfig 5 [badHolding]
     ⟨badHolding, List.mem_singleton.mpr rfl, Or.inl (by norm_num [badHolding])⟩⟩

/-- Replacing one element of a list by an element whose row and column of
a non-negative interaction kernel vanish cannot increase the double sum. -/
theorem sum_sum_replace_le {α : Type} (g : α → α → ℚ) (pre post : List α)
    (a a' : α)
    (hnn : ∀ x ∈ pre ++ a :: post, ∀ y ∈ pre ++ a :: post, 0 ≤ g x y)
    (hzr : ∀ x, g x a' = 0) (hzl : ∀ y, g a' y = 0) :
    ((pre ++ a' :: post).map
      (fun x => ((pre ++ a' :: post).map (g x)).sum)).sum ≤
    ((pre ++ a :: post).map
      (fun x => ((pre ++ a :: post).map (g x)).sum)).sum := by
  have hmem_a : a ∈ pre ++ a :: post :=
    List.mem_append_right _ (List.mem_cons_self a post)
  have hinner : ∀ x ∈ pre ++ a :: post,
      ((pre ++ a' :: post).map (g x)).sum ≤
        ((pre ++ a :: post).map (g x)).sum := by
    intro x hx
    simp only [List.map_append, List.sum_append, List.map_cons, List.sum_cons,
      hzr]
    have h0 : 0 ≤ g x a := hnn x hx a hmem_a
    linarith
  have h1 : (pre.map (fun x => ((pre ++ a' :: post).map (g x)).sum)).sum ≤
      (pre.map (fun x => ((pre ++ a :: post).map (g x)).sum)).sum :=
    List.sum_le_sum (fun i hi => hinner i (List.mem_append_left _ hi))
  have h2 : (post.map (fun x => ((pre ++ a' :: post).map (g x)).sum)).sum ≤
      (post.map (fun x => ((pre ++ a :: post).map (g x)).sum)).sum :=
    List.sum_le_sum (fun i hi =>
      hinner i (List.mem_append_right _ (List.mem_cons_of_mem a hi)))
  have h3 : ((pre ++ a' :: post).map (g a')).sum = 0 :=
    List.sum_eq_zero (fun x hx => by
      rcases List.mem_map.mp hx with ⟨y, _, rfl⟩
      exact hzl y)
  have h4 : 0 ≤ ((pre ++ a :: post).map (g a)).sum :=
    List.sum_nonneg (fun x hx => by
      rcases List.mem_map.mp hx with ⟨y, hy, rfl⟩
      exact hnn a hmem_a y hy)
  have key : ∀ b : α,
      ((pre ++ b :: post).map
        (fun x => ((pre ++ b :: post).map (g x)).sum)).sum =
      (pre.map (fun x => ((pre ++ b :: post).map (g x)).sum)).sum +
      ((pre ++ b :: post).map (g b)).sum +
      (post.map (fun x => ((pre ++ b :: post).map (g x)).sum)).sum := by
    intro b
    simp only [List.map_append, List.sum_append, List.map_cons, List.sum_cons]
    ring
  rw [key a', key a]
  linarith [h1, h2, h3, h4]

/-- Replacing a holding by a cash holding of equal market value cannot
increase the weighted-variance expression (cash has `σ = 0`, so its row
and column of the variance kernel vanish, and under a valid configuration
and validated holdings every kernel entry is non-negative). -/
theorem variance_replace_le (cfg : EngineConfig)
    (pre post : List HoldingView) (h h' : HoldingView)
    (hcfg : ValidConfig cfg)
    (hval : validate (pre ++ h :: post) = none)
    (hcash : h'.asset_class = AssetClass.cash)
    (hmv : marketValue h' = marketValue h) :
    portfolioVariance cfg (pre ++ h' :: post) ≤
      portfolioVariance cfg (pre ++ h :: post) := by
  have htv' : totalValue (pre ++ h' :: post) = totalValue (pre ++ h :: post) := by
    simp [totalValue, hmv]
  have hσ0 : (cfg.profile h'.asset_class).annualized_volatility = 0 := by
    rw [hcash]
    exact hcfg.2.2.1
  unfold portfolioVariance
  rw [htv']
  apply sum_sum_replace_le
    (fun x y => weight (totalValue (pre ++ h :: post)) x *
      weight (totalValue (pre ++ h :: post)) y *
      cfg.corr x.asset_class y.asset_class *
      (cfg.profile x.asset_class).annualized_volatility *
      (cfg.profile y.asset_class).annualized_volatility)
    pre post h h'
  · intro x hx y hy
    exact mul_nonneg (mul_nonneg (mul_nonneg
      (mul_nonneg (weight_nonneg hval hx) (weight_nonneg hval hy))
      (hcfg.2.2.2.2.2 x.asset_class y.asset_class).1)
      (hcfg.1 x.asset_class)) (hcfg.1 y.asset_class)
  · intro x
    rw [hσ0, mul_zero]
  · intro y
    rw [hσ0]
    ring

/-- C6: for every valid configuration and validated portfolio, replacing
a non-cash holding with a CASH-class holding of equal market value never
increases the surfaced 30-day volatility (the square root of the
weighted-variance expression). -/
theorem vol_monotone_C6 (cfg : EngineConfig)
    (pre post : List HoldingView) (h h' : HoldingView)
    (hcfg : ValidConfig cfg)
    (hval : validate (pre ++ h :: post) = none)
    (_hnc : h.asset_class ≠ AssetClass.cash)
    (hcash : h'.asset_class = AssetClass.cash)
    (hmv : marketValue h' = marketValue h) :
    Real.sqrt ((portfolioVariance cfg (pre ++ h' :: post) : ℝ)) ≤
      Real.sqrt ((portfolioVariance cfg (pre ++ h :: post) : ℝ)) := by
  apply Real.sqrt_le_sqrt
  exact_mod_cast variance_replace_le cfg pre post h h' hcfg hval hcash hmv

/-- The scenario holding replaced by cash of equal market value. -/
def scenarioCashReplacement : HoldingView :=
  ⟨"AAPL", AssetClass.cash, 15500, 1, some 1, none⟩

/-- Witness for C6: replacing the scenario equity holding by cash of
equal market value. -/
theorem vol_monotone_C6_witness :
    ValidConfig sampleConfig ∧
    validate ([] ++ scenarioHolding :: []) = none ∧
    scenarioHolding.asset_class ≠ AssetClass.cash ∧
    scenarioCashReplacement.asset_class = AssetClass.cash ∧
    marketValue scenarioCashReplacement = marketValue scenarioHolding ∧
    Real.sqrt ((portfolioVariance sampleConfig
        ([] ++ scenarioCashReplacement :: []) : ℝ)) ≤
      Real.sqrt ((portfolioVariance sampleConfig
        ([] ++ scenarioHolding :: []) : ℝ)) :=
  ⟨sampleConfig_valid, validate_scenario, by decide, rfl,
   by norm_num [marketValue, scenarioHolding, scenarioCashReplacement],
   vol_monotone_C6 sampleConfig [] [] scenarioHolding scenarioCashReplacement
     sampleConfig_valid validate_scenario (by decide) rfl
     (by norm_num [marketValue, scenarioHolding, scenarioCashReplacement])⟩

/-- A frontend holding whose backend-provided `market_value` is present
and equal to 0 while `quantity · avg_cost = 6`. -/
def zeroMarketValueHolding : Frontend.Holding :=
  ⟨1, 1, "ZERO", AssetClass.equity, 2, 3, some 0, some 0, none, ""⟩

/-- Counterexample to C3: the holdings-table market-value cell uses the
JavaScript falsy test `h.market_value || h.quantity * h.avg_cost`
(`PortfolioDetail.tsx`, line 277), so a present `market_value` of 0 is
displayed as `quantity · avg_cost = 6`, not as the present value 0. -/
theorem display_market_value_C3_cex :
    zeroMarketValueHolding.market_value = some 0 ∧
    Frontend.displayMarketValue zeroMarketValueHolding = 6 ∧
    Frontend.displayMarketValue zeroMarketValueHolding ≠ 0 := by
  refine ⟨rfl, ?_, ?_⟩ <;>
    norm_num [Frontend.displayMarketValue, Frontend.jsOrNum,
      zeroMarketValueHolding]

/-- C3 (amended): the market value displayed for a holding equals the
provided `market_value` when it is present and nonzero, and falls back to
`quantity · avg_cost` when it is absent or zero (JavaScript `||` treats
the number 0 as falsy); the page's total value is the sum of the
displayed per-holding market values. -/
theorem display_market_value_C3 :
    (∀ h : Frontend.Holding, ∀ v : ℚ, h.market_value = some v → v ≠ 0 →
      Frontend.displayMarketValue h = v) ∧
    (∀ h : Frontend.Holding,
      h.market_value = none ∨ h.market_value = some 0 →
      Frontend.displayMarketValue h = h.quantity * h.avg_cost) ∧
    (∀ hs : List Frontend.Holding,
      Frontend.pageTotalValue (some hs) =
        (hs.map Frontend.displayMarketValue).sum) := by
  refine ⟨?_, ?_, ?_⟩
  · intro h v hv hnz
    unfold Frontend.displayMarketValue Frontend.jsOrNum
    rw [hv]
    exact if_neg hnz
  · intro h hv
    unfold Frontend.displayMarketValue Frontend.jsOrNum
    rcases hv with hv | hv <;> rw [hv]
    simp
  · intro hs
    simp only [Frontend.pageTotalValue, Frontend.jsOrNum]
    have hfold : hs.foldl (fun sum h => sum + Frontend.displayMarketValue h) 0 =
        (hs.map Frontend.displayMarketValue).sum := by
      rw [List.sum_eq_foldl, List.foldl_map]
    by_cases h0 : hs.foldl (fun sum h => sum + Frontend.displayMarketValue h) 0 = 0
    · rw [if_pos h0, ← hfold, h0]
    · simp only [if_neg h0]
      exact hfold

/-- A frontend holding with a present nonzero market value, for the C3
witness. -/
def plainHolding : Frontend.Holding :=
  ⟨2, 1, "AAPL", AssetClass.equity, 100, 150, some 155, some 15500, none, ""⟩

/-- Witness for C3 (amended) on concrete holdings: a present nonzero
market value is displayed as is, a zero one falls back to cost basis,
and the page total sums the displayed values. -/
theorem display_market_value_C3_witness :
    plainHolding.market_value = some 15500 ∧ (15500 : ℚ) ≠ 0 ∧
    Frontend.displayMarketValue plainHolding = 15500 ∧
    (zeroMarketValueHolding.market_value = none ∨
      zeroMarketValueHolding.market_value = some 0) ∧
    Frontend.displayMarketValue zeroMarketValueHolding =
      zeroMarketValueHolding.quantity * zeroMarketValueHolding.avg_cost ∧
    Frontend.pageTotalValue (some [plainHolding, zeroMarketValueHolding]) =
      ([plainHolding, zeroMarketValueHolding].map
        Frontend.displayMarketValue).sum :=
  ⟨rfl, by norm_num,
   display_market_value_C3.1 plainHolding 15500 rfl (by norm_num),
   Or.inr rfl,
   display_market_value_C3.2.1 zeroMarketValueHolding (Or.inr rfl),
   display_market_value_C3.2.2 [plainHolding, zeroMarketValueHolding]⟩

/-- C8: the wire strings of the six asset classes are exactly the six
case-sensitive lowercase strings of the TypeScript enum, in one-to-one
correspondence with the spec's enumeration, and the add-holding form's
`<select>` offers exactly these values. -/
theorem asset_class_wire_C8 :
    AssetClass.all.map AssetClass.wire =
      ["equity", "bond", "cash", "crypto", "commodity", "real_estate"] ∧
    assetClassSelectOptions = AssetClass.all.map AssetClass.wire ∧
    Function.Injective AssetClass.wire ∧
    (∀ c : AssetClass, c ∈ AssetClass.all) ∧ AssetClass.all.Nodup := by
  refine ⟨rfl, rfl, ?_, ?_, by decide⟩
  · intro a b hab
    cases a <;> cases b <;> first | rfl | exact absurd hab (by decide)
  · intro c
    cases c <;> decide

/-- C9: the frontend `RiskSnapshot` type makes each of the seven output
fields nullable — for every choice of value-or-null for the seven fields
there is a representable snapshot carrying exactly those. -/
theorem risk_snapshot_nullable_C9 :
    ∀ v1 v2 v3 v4 v5 v6 v7 : Option ℚ,
      ∃ s : Frontend.RiskSnapshot,
        s.volatility_30d = v1 ∧ s.max_drawdown_1y = v2 ∧
        s.sharpe_ratio = v3 ∧ s.cash_pct = v4 ∧ s.top_holding_pct = v5 ∧
        s.diversification_score = v6 ∧ s.total_value = v7 := by
  intro v1 v2 v3 v4 v5 v6 v7
  exact ⟨⟨0, 0, "", v1, v2, v3, v4, v5, v6, v7⟩,
    rfl, rfl, rfl, rfl, rfl, rfl, rfl⟩

/-- C10: the Compute Risk button is enabled exactly when the holdings
query has resolved to a non-empty list and no compute request is
pending; since a disabled button cannot fire its click handler (the only
caller of the compute mutation), the page never issues a compute request
for a missing or empty holdings list or while one is pending. -/
theorem compute_button_C10 :
    ∀ (holdings : Option (List Frontend.Holding)) (isPending : Bool),
      Frontend.computeRiskDisabled holdings isPending = false ↔
        (∃ l, holdings = some l ∧ l ≠ [] ∧ isPending = false) := by
  intro holdings p
  cases holdings with
  | none => simp [Frontend.computeRiskDisabled]
  | some l =>
    cases p with
    | false =>
      simp [Frontend.computeRiskDisabled, List.length_eq_zero]
    | true =>
      simp [Frontend.computeRiskDisabled]
